import Mathlib

/-!
Verification of the theme-agent repository's safety-enforcing mutation
pipeline, as a shallow embedding in Lean.

Python text is modelled as `List Char` (one entry per Unicode code point,
matching Python's `str` indexing/length semantics).  Each Lean definition
below embeds one Python function from `src/agent/...`; the doc comment of a
definition names its source.  The filesystem is modelled as an association
list from paths to text contents; symlinks are assumed absent, so
`Path.resolve()` is purely textual `..`-normalization.
-/

namespace ThemeAgent

/-- Python string, one `Char` per code point. -/
abbrev Str := List Char

/-- Convert a Lean string literal to the model representation. -/
def pystr (s : String) : Str := s.data

/-- Python's default whitespace set for `str.strip()` (ASCII part; the model
restricts to ASCII whitespace). -/
def isPyWs (c : Char) : Bool :=
  c = ' ' || c = '\t' || c = '\n' || c = '\x0d' || c = '\x0b' || c = '\x0c'

/-- Python `s.strip()`: remove leading and trailing whitespace. -/
def pyStrip (s : Str) : Str :=
  ((s.dropWhile isPyWs).reverse.dropWhile isPyWs).reverse

/-- Python `s.lstrip("/")`. -/
def lstripSlash (s : Str) : Str := s.dropWhile (· = '/')

/-- Python `s.startswith(pre)` (model: list prefix test). -/
def startsWith (pre s : Str) : Bool := pre.isPrefixOf s

/-- Python `sub in s` (substring containment), via a scan of all tails. -/
def hasInfix (sub s : Str) : Bool := s.tails.any (fun t => sub.isPrefixOf t)

/-- Split a string at every `'/'` (Python `s.split("/")`: keeps empty
segments, always returns at least one segment). -/
def splitSegs : Str → List Str
  | [] => [[]]
  | c :: cs =>
    match splitSegs cs with
    | [] => [[]]
    | seg :: rest => if c = '/' then [] :: seg :: rest else (c :: seg) :: rest

/-- Join segments with `'/'` separators (inverse of `splitSegs`). -/
def joinSegs : List Str → Str
  | [] => []
  | [seg] => seg
  | seg :: rest => seg ++ '/' :: joinSegs rest

/-- Python `s.replace("\\", "/")` (single-character replacement). -/
def replaceBackslash (s : Str) : Str :=
  s.map (fun c => if c = '\\' then '/' else c)

/-- The loop `while "//" in p: p = p.replace("//", "/")` from
`_norm_rel_path`: collapse every run of slashes to a single slash.
Fuel-indexed (the initial fuel always suffices). -/
def collapseSlashAux : Nat → Str → Str
  | 0, s => s
  | fuel + 1, s =>
    match s with
    | '/' :: '/' :: rest => collapseSlashAux fuel ('/' :: rest)
    | c :: rest => c :: collapseSlashAux fuel rest
    | [] => []

/-- Collapse every run of slashes to a single slash. -/
def collapseSlash (s : Str) : Str := collapseSlashAux (s.length + 1) s

/-- `plan_policy._norm_rel_path`: replace backslashes, strip leading slashes,
collapse double slashes. -/
def normRelPath (p : Str) : Str :=
  collapseSlash (lstripSlash (replaceBackslash p))

/-- A segment that contributes a real component: neither empty nor `"."`. -/
def isRealSeg (seg : Str) : Bool :=
  if seg = [] ∨ seg = pystr "." then false else true

/-- `pathlib.Path(s).parts` for a relative POSIX path: split on `'/'` and
drop empty and `"."` segments (`".."` segments are kept). -/
def pathParts (s : Str) : List Str :=
  (splitSegs s).filter isRealSeg

/-- Python `s.split("/", 1)[0]`: the text before the first slash. -/
def firstSeg (s : Str) : Str := s.takeWhile (· ≠ '/')

/-- Textual `resolve()` of an absolute path given as its component list
(root of the filesystem = `[]`): `".."` pops one component, popping at the
filesystem root is a no-op, other components are appended.  Components
coming from `Path.parts` contain no `""`/`"."`. -/
def absResolve (parts : List Str) : List Str :=
  parts.foldl (fun acc seg => if seg = pystr ".." then acc.dropLast else acc ++ [seg]) []

/-- Ground truth for the escape claims: walking the `'/'`-separated segments
left to right (ignoring `""` and `"."`), some `".."` segment steps above the
starting directory.  This is the "parent-directory traversal segment that
would escape the workspace root" notion of the specification. -/
def dipsAux : List Str → Nat → Bool
  | [], _ => false
  | seg :: rest, d =>
    if seg = pystr ".." then (if d = 0 then true else dipsAux rest (d - 1))
    else if isRealSeg seg then dipsAux rest (d + 1)
    else dipsAux rest d

/-- A path escapes the workspace root, measured on the text that
`ThemeFS._resolve_rel` actually resolves (after `strip()`/`lstrip("/")`). -/
def escapesResolved (s : Str) : Bool :=
  dipsAux (splitSegs (lstripSlash (pyStrip s))) 0

/-- A path escapes the workspace root, measured on the text that
`_is_safe_theme_path` actually checks (after `_norm_rel_path`). -/
def escapesNormed (s : Str) : Bool :=
  dipsAux (splitSegs (normRelPath s)) 0

/-- `fs_theme.ALLOWED_TOP_DIRS`. -/
def ALLOWED_TOP_DIRS : List Str :=
  [pystr "sections", pystr "snippets", pystr "blocks", pystr "templates",
   pystr "layout", pystr "assets", pystr "config", pystr "locales"]

/-- Error conditions raised as `ThemeScopeError` by `ThemeFS`. -/
inductive ScopeErr where
  | traversal
  | escapesRoot
  | emptyPath
  | blockedTop
  | blockedAsset
  | inlineImageData
  | fileNotFound
  deriving DecidableEq, Repr

/-- `ThemeFS._resolve_rel`: strip whitespace and leading slashes, reject the
traversal substrings, resolve against the workspace root `root` (given as the
component list of the resolved root directory) and reject if the result is
not under `root`, then require the first `Path.parts` component to be an
allowed top-level directory.  Returns the resolved component list. -/
def resolveRel (root : List Str) (relPath : Str) : Except ScopeErr (List Str) :=
  let r := lstripSlash (pyStrip relPath)
  if startsWith (pystr "..") r || hasInfix (pystr "/../") r
      || hasInfix (pystr "\\..\\") r then
    .error .traversal
  else
    let p := absResolve (root ++ pathParts r)
    if root.isPrefixOf p then
      match pathParts r with
      | [] => .error .emptyPath
      | top :: _ =>
        if ALLOWED_TOP_DIRS.contains top then .ok p else .error .blockedTop
    else .error .escapesRoot

/-- `plan_policy.DISALLOWED_PREFIXES`. -/
def DISALLOWED_PREFIXES : List Str :=
  [pystr ".git/", pystr ".github/", pystr ".cursor/", pystr ".vscode/"]

/-- `plan_policy.DISALLOWED_EXACT`. -/
def DISALLOWED_EXACT : List Str := [pystr "config/settings_data.json"]

/-- `plan_policy.ALLOWED_TOP_LEVEL_DIRS`. -/
def ALLOWED_TOP_LEVEL_DIRS : List Str :=
  [pystr "assets", pystr "blocks", pystr "config", pystr "layout",
   pystr "locales", pystr "sections", pystr "snippets", pystr "templates"]

/-- `plan_policy._is_safe_theme_path`. -/
def isSafeThemePath (rel : Str) : Bool :=
  let r := normRelPath rel
  if startsWith (pystr "../") r || hasInfix (pystr "/../") r
      || r == pystr ".." || r == [] then
    false
  else
    let top := firstSeg r
    if !ALLOWED_TOP_LEVEL_DIRS.contains top then false
    else if DISALLOWED_PREFIXES.any (fun pre => startsWith pre r) then false
    else if DISALLOWED_EXACT.contains r then false
    else true

/-- The workspace root directory as produced by `Path.resolve()` in
`ThemeFS.__post_init__`: a nonempty component list with no empty, `"."` or
`".."` components. -/
def rootOk (root : List Str) : Prop :=
  root ≠ [] ∧ ∀ seg ∈ root, seg ≠ [] ∧ seg ≠ pystr "." ∧ seg ≠ pystr ".."

/-- Boolean test mirroring `Except.isOk`. -/
def exOk {ε α : Type} : Except ε α → Bool
  | .ok _ => true
  | .error _ => false

/-- Python `s.find(sub)`: index of the first occurrence, `none` for `-1`.
An empty needle matches at index 0, as in Python. -/
def pyFind (needle : Str) : Str → Option Nat
  | [] => if needle.isPrefixOf [] then some 0 else none
  | c :: t =>
    if needle.isPrefixOf (c :: t) then some 0
    else (pyFind needle t).map (· + 1)

/-- Python `s.count(sub)` for a nonempty `sub`: non-overlapping occurrences,
scanning left to right (fuel-indexed; the initial fuel always suffices). -/
def pyCountAux (needle : Str) : Nat → Str → Nat
  | 0, _ => 0
  | fuel + 1, hay =>
    if needle.isPrefixOf hay then 1 + pyCountAux needle fuel (hay.drop needle.length)
    else
      match hay with
      | [] => 0
      | _ :: t => pyCountAux needle fuel t

/-- Python `s.count(sub)` for a nonempty needle. -/
def pyCount (needle hay : Str) : Nat :=
  if needle = [] then 0 else pyCountAux needle (hay.length + 1) hay

/-- Python `s.replace(old, new)` (all non-overlapping occurrences, left to
right) for a nonempty `old`; an empty `old` leaves `s` unchanged in the
model (all call sites use nonempty literals). -/
def pyReplaceAllAux (old new : Str) : Nat → Str → Str
  | 0, s => s
  | fuel + 1, s =>
    if old.isPrefixOf s then new ++ pyReplaceAllAux old new fuel (s.drop old.length)
    else
      match s with
      | [] => []
      | c :: t => c :: pyReplaceAllAux old new fuel t

/-- Python `s.replace(old, new)` for a nonempty `old`. -/
def pyReplaceAll (old new s : Str) : Str :=
  if old = [] then s else pyReplaceAllAux old new (s.length + 1) s

/-- Python `s.replace(old, new, 1)`: replace only the first occurrence. -/
def pyReplace1 (old new s : Str) : Str :=
  match pyFind old s with
  | none => s
  | some i => s.take i ++ new ++ s.drop (i + old.length)

/-- Python `s.lower()` (ASCII model). -/
def pyLower (s : Str) : Str := s.map Char.toLower

/-- Python line-boundary characters recognized by `str.splitlines()`. -/
def isLineBreak (c : Char) : Bool :=
  ['\n', '\x0b', '\x0c', '\x0d', '\x1c', '\x1d', '\x1e',
   '\x85', ' ', ' '].contains c

/-- Python `s.splitlines()` (keepends false); `"\r\n"` counts as one break
and a terminal break produces no trailing empty line.  Fuel-indexed for
structural recursion; the initial fuel always suffices. -/
def pySplitlinesAux : Nat → Str → List Str
  | 0, _ => []
  | fuel + 1, s =>
    match s with
    | [] => []
    | _ =>
      let line := s.takeWhile (fun c => !isLineBreak c)
      let rest := s.dropWhile (fun c => !isLineBreak c)
      match rest with
      | [] => [line]
      | '\x0d' :: '\n' :: r => line :: pySplitlinesAux fuel r
      | _ :: r => line :: pySplitlinesAux fuel r

/-- Python `s.splitlines()`. -/
def pySplitlines (s : Str) : List Str := pySplitlinesAux (s.length + 1) s

/-- Python `s.split()` (no argument): split on whitespace runs, dropping
empties.  Fuel-indexed; the initial fuel always suffices. -/
def pySplitWsAux : Nat → Str → List Str
  | 0, _ => []
  | fuel + 1, s =>
    let s2 := s.dropWhile isPyWs
    if s2 = [] then []
    else s2.takeWhile (fun c => !isPyWs c)
      :: pySplitWsAux fuel (s2.dropWhile (fun c => !isPyWs c))

/-- Python `s.split()`. -/
def pySplitWs (s : Str) : List Str := pySplitWsAux (s.length + 1) s

/-- Python `s.split(sep)` for a nonempty string separator: non-overlapping,
left to right, keeping empty chunks.  Fuel-indexed. -/
def splitBySubAux (sep : Str) : Nat → Str → List Str
  | 0, s => [s]
  | fuel + 1, s =>
    if sep = [] then [s]
    else
      match pyFind sep s with
      | none => [s]
      | some i => s.take i :: splitBySubAux sep fuel (s.drop (i + sep.length))

/-- Python `s.split(sep)`. -/
def splitBySub (sep s : Str) : List Str := splitBySubAux sep (s.length + 1) s

/-- Python `s.split(" ", 1)` successfully unpacked into two pieces;
`none` models the `ValueError` when no space occurs. -/
def splitOnceAtSpace (s : Str) : Option (Str × Str) :=
  match pyFind (pystr " ") s with
  | none => none
  | some i => some (s.take i, s.drop (i + 1))

/-- Digits-only numeral value, `none` if empty or non-digit characters. -/
def digitsToNat (ds : Str) : Option Nat :=
  if ds = [] then none
  else if ds.all (fun c => c.isDigit) then
    some (ds.foldl (fun n c => n * 10 + (c.toNat - 48)) 0)
  else none

/-- Python `int(s)` on decimal text: strip whitespace, optional sign,
digits (`none` models `ValueError`; underscored numerals are not modelled). -/
def pyInt (s : Str) : Option Int :=
  match pyStrip s with
  | '+' :: ds => (digitsToNat ds).map (fun n => (n : Int))
  | '-' :: ds => (digitsToNat ds).map (fun n => -(n : Int))
  | ds => (digitsToNat ds).map (fun n => (n : Int))

/-- Index of the last occurrence of a character (Python `s.rfind(c)`). -/
def lastIdxOf (c : Char) : Str → Option Nat
  | [] => none
  | a :: t =>
    match lastIdxOf c t with
    | some i => some (i + 1)
    | none => if a = c then some 0 else none

/-- First-match association-list lookup (Python `dict` read access; plan
dictionaries have unique keys). -/
def alookup {κ α : Type} [DecidableEq κ] : List (κ × α) → κ → Option α
  | [], _ => none
  | (k, v) :: t, key => if k = key then some v else alookup t key

/-- Association-list update: replace the first binding of the key, or append
a new one (Python `dict` assignment, preserving insertion order). -/
def aset {κ α : Type} [DecidableEq κ] : List (κ × α) → κ → α → List (κ × α)
  | [], key, v => [(key, v)]
  | (k, w) :: t, key, v =>
    if k = key then (key, v) :: t else (k, w) :: aset t key v

/-- On-disk state of the theme workspace for the patch/apply pipeline,
keyed by the normalized relative path of each existing file. -/
abbrev Fs := List (Str × Str)

/-! #### `patch_unified.py` -/

/-- Failure conditions raised as `PatchError` while parsing or applying a
unified diff (`sourceIndexOutOfRange` models the uncaught `IndexError` that
`_apply_hunks_to_text` hits when a hunk start lies beyond the file end). -/
inductive PatchErr where
  | badHunkHeader
  | malformedDiffHeader
  | contextMismatch
  | deleteMismatch
  | unknownTag
  | sourceIndexOutOfRange
  | disallowedPath (rel : Str)
  | missingTarget (rel : Str)
  deriving DecidableEq, Repr

/-- `patch_unified.Hunk`. -/
structure Hunk where
  oldStart : Int
  oldLen : Int
  newStart : Int
  newLen : Int
  lines : List Str
  deriving DecidableEq, Repr

/-- `patch_unified.FilePatch`. -/
structure FilePatch where
  pathOld : Str
  pathNew : Str
  hunks : List Hunk
  deriving DecidableEq, Repr

/-- `patch_unified._parse_hunk_header`: any of the chained string/int
failures inside the `try` surfaces as a `PatchError`. -/
def parseHunkHeader (line : Str) : Except PatchErr (Int × Int × Int × Int) :=
  let header := pyStrip line
  if ¬ startsWith (pystr "@@") header then .error .badHunkHeader
  else
    match (splitBySub (pystr "@@") header).get? 1 with
    | none => .error .badHunkHeader
    | some mid0 =>
      let mid := pyStrip mid0
      match splitOnceAtSpace mid with
      | none => .error .badHunkHeader
      | some (left, right) =>
        let old := left.dropWhile (· = '-')
        let newp :=
          ((splitBySub (pystr " ") (pyStrip right)).headD []).dropWhile (· = '+')
        match splitBySub (pystr ",") old ++ [pystr "1"],
              splitBySub (pystr ",") newp ++ [pystr "1"] with
        | a :: b :: _, c2 :: d2 :: _ =>
          match pyInt a, pyInt b, pyInt c2, pyInt d2 with
          | some os, some ol, some ns, some nl => .ok (os, ol, ns, nl)
          | _, _, _, _ => .error .badHunkHeader
        | _, _ => .error .badHunkHeader

/-- Mutable state of `patch_unified.parse_unified_diff`'s scanning loop. -/
structure PState where
  patches : List FilePatch
  cur : Option (Str × Str)
  curHunks : List Hunk
  curHunk : Option Hunk

/-- The `flush_hunk` closure. -/
def flushHunk (st : PState) : PState :=
  match st.curHunk with
  | none => st
  | some h => { st with curHunks := st.curHunks ++ [h], curHunk := none }

/-- The `flush_file` closure. -/
def flushFile (st : PState) : PState :=
  let st2 := flushHunk st
  match st2.cur with
  | none => st2
  | some (po, pn) =>
    { patches := st2.patches ++ [⟨po, pn, st2.curHunks⟩],
      cur := none, curHunks := [], curHunk := none }

/-- The body of `parse_unified_diff`'s `while` loop.  The Python
"`flush_hunk(); continue` without `i += 1`" path re-examines the same line
with `current_hunk = None`; since that line matched none of the earlier
branches it then merely advances, so the net effect modelled here is
"flush the hunk and skip the line". -/
def parseLinesGo : List Str → PState → Except PatchErr (List FilePatch)
  | [], st => .ok (flushFile st).patches
  | line :: rest, st =>
    if startsWith (pystr "diff --git ") line then
      let st2 := flushFile st
      match pySplitWs line with
      | _ :: _ :: a :: b :: _ =>
        let po := if startsWith (pystr "a/") a then a.drop 2 else a
        let pn := if startsWith (pystr "b/") b then b.drop 2 else b
        parseLinesGo rest { st2 with cur := some (po, pn) }
      | _ => .error .malformedDiffHeader
    else
      match st.cur with
      | none => parseLinesGo rest st
      | some _ =>
        if startsWith (pystr "--- ") line || startsWith (pystr "+++ ") line then
          parseLinesGo rest st
        else if startsWith (pystr "@@") line then
          let st2 := flushHunk st
          match parseHunkHeader line with
          | .error e => .error e
          | .ok (os, ol, ns, nl) =>
            parseLinesGo rest { st2 with curHunk := some ⟨os, ol, ns, nl, []⟩ }
        else
          match st.curHunk with
          | some h =>
            match line with
            | c :: _ =>
              if c = ' ' || c = '+' || c = '-' then
                parseLinesGo rest
                  { st with curHunk := some { h with lines := h.lines ++ [line] } }
              else parseLinesGo rest (flushHunk st)
            | [] => parseLinesGo rest (flushHunk st)
          | none => parseLinesGo rest st

/-- `patch_unified.parse_unified_diff`. -/
def parseUnifiedDiff (patchText : Str) : Except PatchErr (List FilePatch) :=
  parseLinesGo (pySplitlines patchText) ⟨[], none, [], none⟩

/-- The `while src_idx < target_idx` copy loop of `_apply_hunks_to_text`,
counted by its `target_idx - src_idx` iterations; `src[src_idx]` past the
end raises (an `IndexError` in Python). -/
def copyUpToAux (src : List Str) : Nat → Nat → List Str →
    Except PatchErr (Nat × List Str)
  | 0, srcIdx, out => .ok (srcIdx, out)
  | steps + 1, srcIdx, out =>
    match src.get? srcIdx with
    | none => .error .sourceIndexOutOfRange
    | some l => copyUpToAux src steps (srcIdx + 1) (out ++ [l])

/-- The copy-up-to-hunk-start loop. -/
def copyUpTo (src : List Str) (srcIdx target : Nat) (out : List Str) :
    Except PatchErr (Nat × List Str) :=
  copyUpToAux src (target - srcIdx) srcIdx out

/-- The `for hl in h.lines` loop of `_apply_hunks_to_text`: context and
removed lines must match the source exactly, added lines are emitted. -/
def applyHunkLines (src : List Str) : List Str → Nat → List Str →
    Except PatchErr (Nat × List Str)
  | [], srcIdx, out => .ok (srcIdx, out)
  | hl :: rest, srcIdx, out =>
    match hl with
    | [] => applyHunkLines src rest srcIdx out
    | tag :: content =>
      if tag = ' ' then
        match src.get? srcIdx with
        | some l =>
          if l = content then applyHunkLines src rest (srcIdx + 1) (out ++ [l])
          else .error .contextMismatch
        | none => .error .contextMismatch
      else if tag = '-' then
        match src.get? srcIdx with
        | some l =>
          if l = content then applyHunkLines src rest (srcIdx + 1) out
          else .error .deleteMismatch
        | none => .error .deleteMismatch
      else if tag = '+' then applyHunkLines src rest srcIdx (out ++ [content])
      else .error .unknownTag

/-- The `for h in hunks` loop of `_apply_hunks_to_text`. -/
def applyHunksGo (src : List Str) : List Hunk → Nat → List Str →
    Except PatchErr (Nat × List Str)
  | [], srcIdx, out => .ok (srcIdx, out)
  | h :: hrest, srcIdx, out =>
    match copyUpTo src srcIdx (h.oldStart - 1).toNat out with
    | .error e => .error e
    | .ok (i2, out2) =>
      match applyHunkLines src h.lines i2 out2 with
      | .error e => .error e
      | .ok (i3, out3) => applyHunksGo src hrest i3 out3

/-- `patch_unified._apply_hunks_to_text`. -/
def applyHunksToText (original : Str) (hunks : List Hunk) : Except PatchErr Str :=
  let src := pySplitlines original
  match applyHunksGo src hunks 0 [] with
  | .error e => .error e
  | .ok (srcIdx, out) =>
    .ok (List.intercalate (pystr "\n") (out ++ src.drop srcIdx)
      ++ (if original.getLast? = some '\n' then pystr "\n" else []))

/-- The `for fp in file_patches` loop of `apply_unified_patch`: each file is
checked, patched in memory and written back before the next file is
examined, so an error stops with all earlier files already rewritten. -/
def applyFilePatches : List FilePatch → Fs → List Str →
    Fs × Except PatchErr (List Str)
  | [], fs, changed => (fs, .ok changed)
  | fp :: rest, fs, changed =>
    let rel := normRelPath fp.pathNew
    if ¬ isSafeThemePath rel then (fs, .error (.disallowedPath rel))
    else
      match alookup fs rel with
      | none => (fs, .error (.missingTarget rel))
      | some original =>
        match applyHunksToText original fp.hunks with
        | .error e => (fs, .error e)
        | .ok newText =>
          if newText ≠ original then
            applyFilePatches rest (aset fs rel newText) (changed ++ [rel])
          else applyFilePatches rest fs changed

/-- `patch_unified.apply_unified_patch`: returns the filesystem state after
whatever writes happened, plus the outcome (changed relative paths, or the
`PatchError` that aborted the loop). -/
def applyUnifiedPatch (patchText : Str) (fs : Fs) :
    Fs × Except PatchErr (List Str) :=
  match parseUnifiedDiff patchText with
  | .error e => (fs, .error e)
  | .ok fps => applyFilePatches fps fs []

/-! #### `patch_apply.py` -/

/-- Failure conditions raised as `ApplyError` by `apply_plan_ops`. -/
inductive ApplyErr where
  | patchFailed (i : Nat) (e : PatchErr)
  | createTargetExists (i : Nat) (rel : Str)
  | missingFile (i : Nat) (rel : Str)
  | anchorMismatch (i : Nat) (rel : Str) (found : Nat) (expected : Int)
  | anchorNotFound (i : Nat)
  deriving DecidableEq, Repr

/-- A validated plan operation as read back by `apply_plan_ops` from the op
dictionary (`expect` is `int(op.get("expect_anchor_count", 1))`, `reason` is
`op.get("reason", "")`). -/
inductive PlanOp where
  | insertAfter (path anchor content : Str) (expect : Int) (reason : Str)
  | insertBefore (path anchor content : Str) (expect : Int) (reason : Str)
  | replaceOnce (path anchor replacement : Str) (expect : Int) (reason : Str)
  | createFile (path content : Str) (reason : Str)
  | applyPatch (patch : Str) (reason : Str)
  deriving DecidableEq, Repr

/-- One entry of the `applied` list built by `apply_plan_ops` (`path` and
`anchor` keys are present only for the op kinds that set them). -/
structure AppliedOp where
  opType : Str
  path : Option Str
  anchor : Option Str
  reason : Str
  deriving DecidableEq, Repr

/-- `patch_apply.ApplyResult` (`changed_files` and `created_files` are the
sorted set contents). -/
structure ApplyResult where
  changedFiles : List Str
  createdFiles : List Str
  appliedOps : List AppliedOp
  deriving DecidableEq, Repr

/-- `patch_apply._count_occurrences`. -/
def countOccurrences (text needle : Str) : Nat :=
  if needle = [] then 0 else pyCount needle text

/-- `patch_apply._insert_after`. -/
def insertAfterText (text anchor content : Str) : Except Unit Str :=
  match pyFind anchor text with
  | none => .error ()
  | some idx =>
    .ok (text.take (idx + anchor.length) ++ content ++ text.drop (idx + anchor.length))

/-- `patch_apply._insert_before`. -/
def insertBeforeText (text anchor content : Str) : Except Unit Str :=
  match pyFind anchor text with
  | none => .error ()
  | some idx => .ok (text.take idx ++ content ++ text.drop idx)

/-- `patch_apply._replace_once`. -/
def replaceOnceText (text anchor replacement : Str) : Except Unit Str :=
  match pyFind anchor text with
  | none => .error ()
  | some _ => .ok (pyReplace1 anchor replacement text)

/-- Python `set.add` observed through the final sorted listing: keep one
copy of each element, in first-insertion order (sorted at the end). -/
def addSet (l : List Str) (x : Str) : List Str := if x ∈ l then l else l ++ [x]

/-- Python `sorted` on a list of strings (code-point lexicographic). -/
def sortStrs (l : List Str) : List Str := List.insertionSort (fun a b => a ≤ b) l

/-- Loop state of `apply_plan_ops` (`fs` is the on-disk state). -/
structure ApplyState where
  fs : Fs
  changed : List Str
  created : List Str
  applied : List AppliedOp

/-- Shared shape of the three anchor ops in `apply_plan_ops`: read the
target, compare the anchor occurrence count against the declared expectation,
compute the new text, and write only when the text changed. -/
def applyAnchor (i : Nat) (st : ApplyState) (path anchor : Str) (expect : Int)
    (tname reason : Str) (compute : Str → Except Unit Str) :
    Fs × Except ApplyErr ApplyState :=
  match alookup st.fs path with
  | none => (st.fs, .error (.missingFile i path))
  | some original =>
    let found := countOccurrences original anchor
    if (found : Int) ≠ expect then
      (st.fs, .error (.anchorMismatch i path found expect))
    else
      match compute original with
      | .error _ => (st.fs, .error (.anchorNotFound i))
      | .ok newText =>
        if newText ≠ original then
          let fs2 := aset st.fs path newText
          let st2 : ApplyState :=
            { st with fs := fs2, changed := addSet st.changed path,
                      applied := st.applied ++ [⟨tname, some path, some anchor, reason⟩] }
          (fs2, .ok st2)
        else
          let st2 : ApplyState :=
            { st with
              applied := st.applied ++ [⟨tname, some path, some anchor, reason⟩] }
          (st.fs, .ok st2)

/-- One iteration of the `for i, op in enumerate(ops)` loop of
`apply_plan_ops`; the returned `Fs` is the disk state after the op (on an
error it reflects any writes the op performed before raising). -/
def applyOneOp (i : Nat) (op : PlanOp) (st : ApplyState) :
    Fs × Except ApplyErr ApplyState :=
  match op with
  | .applyPatch patch reason =>
    match applyUnifiedPatch patch st.fs with
    | (fs2, .error e) => (fs2, .error (.patchFailed i e))
    | (fs2, .ok rels) =>
      let st2 : ApplyState :=
        { st with fs := fs2, changed := rels.foldl addSet st.changed,
                  applied := st.applied ++ [⟨pystr "apply_patch", none, none, reason⟩] }
      (fs2, .ok st2)
  | .createFile path content reason =>
    match alookup st.fs path with
    | some _ => (st.fs, .error (.createTargetExists i path))
    | none =>
      let fs2 := aset st.fs path content
      let st2 : ApplyState :=
        { fs := fs2, changed := addSet st.changed path,
          created := addSet st.created path,
          applied := st.applied ++ [⟨pystr "create_file", some path, none, reason⟩] }
      (fs2, .ok st2)
  | .insertAfter path anchor content expect reason =>
    applyAnchor i st path anchor expect (pystr "insert_after") reason
      (fun original => insertAfterText original anchor content)
  | .insertBefore path anchor content expect reason =>
    applyAnchor i st path anchor expect (pystr "insert_before") reason
      (fun original => insertBeforeText original anchor content)
  | .replaceOnce path anchor replacement expect reason =>
    applyAnchor i st path anchor expect (pystr "replace_once") reason
      (fun original => replaceOnceText original anchor replacement)

/-- The op loop of `apply_plan_ops`; an error aborts the remaining ops with
the disk left as the failing op left it. -/
def applyPlanOpsGo : Nat → List PlanOp → ApplyState →
    Fs × Except ApplyErr ApplyResult
  | _, [], st => (st.fs, .ok ⟨sortStrs st.changed, sortStrs st.created, st.applied⟩)
  | i, op :: rest, st =>
    match applyOneOp i op st with
    | (fs2, .error e) => (fs2, .error e)
    | (_, .ok st2) => applyPlanOpsGo (i + 1) rest st2

/-- `patch_apply.apply_plan_ops` on a validated plan's op list. -/
def applyPlanOps (ops : List PlanOp) (fs : Fs) : Fs × Except ApplyErr ApplyResult :=
  applyPlanOpsGo 0 ops ⟨fs, [], [], []⟩

/-! #### `cmd.py` -/

/-- `CommandNotAllowed`, carrying `_normalize(cmd)`. -/
inductive CmdErr where
  | notAllowed (msg : Str)
  deriving DecidableEq, Repr

/-- `cmd._normalize`: `" ".join(cmd)`. -/
def normalizeCmd (cmd : List Str) : Str := List.intercalate (pystr " ") cmd

/-- `cmd.run_allowed` up to process creation: the allow-list gate.  A
successful result carries the argv that is then handed to `subprocess.run`;
the error path raises before any process is spawned. -/
def runAllowed (cmd : List Str) (allowedPrefixes : List (List Str)) :
    Except CmdErr (List Str) :=
  if allowedPrefixes.any (fun p => cmd.take p.length == p) then .ok cmd
  else .error (.notAllowed (normalizeCmd cmd))

/-! #### `plan_policy.validate_plan` over a JSON value model -/

/-- Python/JSON values as produced by `json.loads` (numbers restricted to
integers; none of the validated fields are floats). -/
inductive J where
  | s (v : Str)
  | i (v : Int)
  | b (v : Bool)
  | null
  | arr (xs : List J)
  | obj (kvs : List (Str × J))

/-- `dict.get` on a JSON object's key/value list. -/
def jGet (kvs : List (Str × J)) (k : Str) : Option J := alookup kvs k

/-- `plan_policy.ALLOWED_OP_TYPES`. -/
def ALLOWED_OP_TYPES : List Str :=
  [pystr "insert_after", pystr "insert_before", pystr "replace_once",
   pystr "create_file", pystr "apply_patch"]

/-- `plan_policy.ALLOWED_CREATE_EXTS_BY_DIR`. -/
def ALLOWED_CREATE_EXTS_BY_DIR : List (Str × List Str) :=
  [(pystr "sections", [pystr ".liquid"]),
   (pystr "snippets", [pystr ".liquid"]),
   (pystr "blocks", [pystr ".liquid"]),
   (pystr "layout", [pystr ".liquid"]),
   (pystr "templates", [pystr ".json", pystr ".liquid"]),
   (pystr "assets",
    [pystr ".js", pystr ".css", pystr ".json", pystr ".svg", pystr ".png",
     pystr ".jpg", pystr ".jpeg", pystr ".webp", pystr ".woff", pystr ".woff2"]),
   (pystr "config", [pystr ".json"]),
   (pystr "locales", [pystr ".json"])]

/-- Failure conditions raised as `PlanError` by `validate_plan`. -/
inductive PlanErr where
  | notObject
  | opsMissing
  | tooManyOps
  | opNotObject
  | badOpType
  | badPath
  | pathNotAllowed
  | createDirNotAllowed
  | createExtNotAllowed
  | badContent
  | badAnchor
  | badReplacement
  | badExpect
  | badPatch
  | tooManyCreates
  | tooMuchContent
  | missingReuseAnalysis
  | justificationTooShort
  deriving DecidableEq, Repr

/-- `rel[dot:]` for `dot = rel.rfind(".")`, `""` when there is no dot
(`plan_policy._validate_create_ext`'s extension extraction — note the
`rfind` scans the whole path, not just the file name). -/
def lastDotSuffix (rel : Str) : Str :=
  match lastIdxOf '.' rel with
  | none => []
  | some i => rel.drop i

/-- `plan_policy._validate_create_ext`. -/
def validateCreateExt (rel : Str) : Except PlanErr Unit :=
  let top := firstSeg rel
  match alookup ALLOWED_CREATE_EXTS_BY_DIR top with
  | none => .error .createDirNotAllowed
  | some exts =>
    if exts.contains (lastDotSuffix rel) then .ok () else .error .createExtNotAllowed

/-- One iteration of `validate_plan`'s op loop: checks the op and returns
the normalized op together with its contribution to the `creates` and
`total_written` accumulators.  (Python's `isinstance(x, int)` also accepts
booleans; plans never carry boolean counts, and the model treats only
integer nodes as ints.) -/
def validateOp (op : J) : Except PlanErr (J × Nat × Nat) :=
  match op with
  | .obj kvs =>
    match jGet kvs (pystr "type") with
    | some (J.s t) =>
      if ¬ ALLOWED_OP_TYPES.contains t then .error .badOpType
      else if t = pystr "apply_patch" then
        match jGet kvs (pystr "patch") with
        | some (J.s pv) =>
          if pyStrip pv = [] then .error .badPatch
          else .ok (J.obj kvs, 0, pv.length)
        | _ => .error .badPatch
      else
        match jGet kvs (pystr "path") with
        | some (J.s pv) =>
          if pyStrip pv = [] then .error .badPath
          else
            let pathNorm := normRelPath pv
            if ¬ isSafeThemePath pathNorm then .error .pathNotAllowed
            else if t = pystr "create_file" then
              match validateCreateExt pathNorm with
              | .error e => .error e
              | .ok _ =>
                match jGet kvs (pystr "content") with
                | some (J.s cv) =>
                  .ok (J.obj (aset kvs (pystr "path") (J.s pathNorm)), 1, cv.length)
                | _ => .error .badContent
            else if t = pystr "replace_once" then
              match jGet kvs (pystr "anchor") with
              | some (J.s av) =>
                if av = [] then .error .badAnchor
                else
                  match jGet kvs (pystr "replacement") with
                  | some (J.s rv) =>
                    match (jGet kvs (pystr "expect_anchor_count")).getD (J.i 1) with
                    | J.i n =>
                      if n < 1 then .error .badExpect
                      else .ok (J.obj (aset kvs (pystr "path") (J.s pathNorm)), 0, rv.length)
                    | _ => .error .badExpect
                  | _ => .error .badReplacement
              | _ => .error .badAnchor
            else
              match jGet kvs (pystr "anchor") with
              | some (J.s av) =>
                if av = [] then .error .badAnchor
                else
                  match jGet kvs (pystr "content") with
                  | some (J.s cv) =>
                    match (jGet kvs (pystr "expect_anchor_count")).getD (J.i 1) with
                    | J.i n =>
                      if n < 1 then .error .badExpect
                      else .ok (J.obj (aset kvs (pystr "path") (J.s pathNorm)), 0, cv.length)
                    | _ => .error .badExpect
                  | _ => .error .badContent
              | _ => .error .badAnchor
        | _ => .error .badPath
    | _ => .error .badOpType
  | _ => .error .opNotObject

/-- The op loop of `validate_plan`: first failure wins, accumulators sum. -/
def foldValidateOps : List J → Except PlanErr (List J × Nat × Nat)
  | [] => .ok ([], 0, 0)
  | op :: rest =>
    match validateOp op with
    | .error e => .error e
    | .ok (nop, c, w) =>
      match foldValidateOps rest with
      | .error e => .error e
      | .ok (nrest, cr, wr) => .ok (nop :: nrest, c + cr, w + wr)

/-- `plan_policy.validate_plan` with its default limits (`max_ops=30`,
`max_creates=12`, `max_total_written_chars=250000`,
`require_reuse_analysis_for_creates=True`, minimum justification length
120). -/
def validatePlan (plan : J) : Except PlanErr J :=
  match plan with
  | .obj kvs =>
    match jGet kvs (pystr "ops") with
    | some (J.arr ops) =>
      if ops.isEmpty then .error .opsMissing
      else if ops.length > 30 then .error .tooManyOps
      else
        match foldValidateOps ops with
        | .error e => .error e
        | .ok (nops, creates, total) =>
          if creates > 12 then .error .tooManyCreates
          else if total > 250000 then .error .tooMuchContent
          else if 0 < creates then
            match jGet kvs (pystr "reuse_analysis") with
            | some (J.obj ra) =>
              match (jGet ra (pystr "new_files_justification")).getD (J.s []) with
              | J.s jv =>
                if (pyStrip jv).length < 120 then .error .justificationTooShort
                else .ok (J.obj (aset kvs (pystr "ops") (J.arr nops)))
              | _ => .error .justificationTooShort
            | _ => .error .missingReuseAnalysis
          else .ok (J.obj (aset kvs (pystr "ops") (J.arr nops)))
    | _ => .error .opsMissing
  | _ => .error .notObject

/-! #### `llm_openai_compat.run_with_tools` and the `run_loop` iteration
budget -/

/-- One model response inside `run_with_tools`: either a round of tool
calls, or a content-only (terminal) message. -/
inductive ModelResp where
  | toolCalls
  | content (text : Str)

/-- `LLMError` raised when the round-trip budget is exhausted. -/
inductive LLMErr where
  | exceededRoundTrips (maxRT : Nat)
  deriving DecidableEq, Repr

/-- The terminal branch of `run_with_tools`: `json.loads(content)` (the
stdlib parser is abstracted as the `parsed` argument) or, on a parse
failure, the literal coercion
`{"status": "continue", "plan": "Model returned non-JSON.",
"edits": content[:2000]}`. -/
def coerceDecision (parsed : Option J) (content : Str) : J :=
  match parsed with
  | some d => d
  | none =>
    J.obj [(pystr "status", J.s (pystr "continue")),
           (pystr "plan", J.s (pystr "Model returned non-JSON.")),
           (pystr "edits", J.s (content.take 2000))]

/-- The `for _ in range(max_tool_round_trips)` loop of `run_with_tools`:
`parse` abstracts `json.loads` (`none` = raises), `resp k` is the model's
k-th response.  Tool-call rounds loop; a content round returns the decision;
falling off the loop raises `LLMError`. -/
def runWithToolsGo (parse : Str → Option J) (resp : Nat → ModelResp)
    (maxRT : Nat) : Nat → Nat → Except LLMErr J
  | 0, _ => .error (.exceededRoundTrips maxRT)
  | remaining + 1, round =>
    match resp round with
    | .toolCalls => runWithToolsGo parse resp maxRT remaining (round + 1)
    | .content c => .ok (coerceDecision (parse c) c)

/-- `OpenAICompatChat.run_with_tools` (decision-relevant skeleton): the
loop runs at most `maxRT` rounds. -/
def runWithTools (parse : Str → Option J) (resp : Nat → ModelResp)
    (maxRT : Nat) : Except LLMErr J :=
  runWithToolsGo parse resp maxRT maxRT 0

/-- The decision statuses distinguished by `run_agent_loop`'s iteration
loop. -/
inductive DecisionStatus where
  | done
  | needsHuman
  | other
  deriving DecidableEq, Repr

/-- How `run_agent_loop` leaves its `for i in range(1, max_iters + 1)`
loop: `break` on a `done` decision, or simply finishing the range. -/
inductive LoopEnd where
  | doneMarked
  | iterationsExhausted
  deriving DecidableEq, Repr

/-- The iteration loop of `run_agent_loop` (lines 452-476): `step i`
abstracts the i-th `run_with_tools` call (errors propagate), `needs_human`
waits on the human gate and continues (the gate is modelled as eventually
resumed), any other status also continues.  Finishing the range falls
through to cleanup and a normal return. -/
def runAgentLoopGo (step : Nat → Except LLMErr DecisionStatus) :
    Nat → Nat → Except LLMErr LoopEnd
  | 0, _ => .ok .iterationsExhausted
  | remaining + 1, i =>
    match step i with
    | .error e => .error e
    | .ok .done => .ok .doneMarked
    | .ok .needsHuman => runAgentLoopGo step remaining (i + 1)
    | .ok .other => runAgentLoopGo step remaining (i + 1)

/-- `run_loop.run_agent_loop`'s decision loop: `maxIters` iterations
starting at `i = 1`. -/
def runAgentLoop (step : Nat → Except LLMErr DecisionStatus)
    (maxIters : Nat) : Except LLMErr LoopEnd :=
  runAgentLoopGo step maxIters 1

/-! #### `human_gate.wait_for_continue` -/

/-- One poll of `wait_for_continue` with the signal file present and holding
`raw`: the function returns `some (notes, newContent)` when the resume
keyword is seen (`notes` is the return value, `newContent` the text written
back to the signal file); `none` models "keep sleeping". -/
def waitForContinueStep (raw : Str) : Option (Str × Str) :=
  let r := pyStrip raw
  if hasInfix (pystr "continue") (pyLower r) then
    some (pyStrip (pyReplaceAll (pystr "CONTINUE") []
            (pyReplaceAll (pystr "continue") [] r)), [])
  else none

/-! #### `ThemeFS.read_text` / `ThemeFS.write_text` -/

/-- `fs_theme.BLOCKED_ASSET_EXTS`. -/
def BLOCKED_ASSET_EXTS : List Str :=
  [pystr ".png", pystr ".jpg", pystr ".jpeg", pystr ".webp", pystr ".gif",
   pystr ".avif", pystr ".svg", pystr ".mp4", pystr ".mov", pystr ".webm",
   pystr ".mp3", pystr ".wav", pystr ".pdf"]

/-- `pathlib.PurePath.suffix` of a file name: the last-dot extension, empty
for dotfiles and names without an inner dot. -/
def pySuffix (name : Str) : Str :=
  match lastIdxOf '.' name with
  | none => []
  | some idx =>
    if 0 < idx ∧ idx + 1 < name.length then name.drop idx else []

/-- `ThemeFS._block_asset_binary_types`. -/
def blockAssetBinaryTypes (relPath : Str) : Except ScopeErr Unit :=
  let parts := pathParts (lstripSlash (pyStrip relPath))
  match parts with
  | [] => .ok ()
  | top :: _ =>
    if top = pystr "assets" then
      let ext := pyLower (pySuffix (parts.getLastD []))
      if BLOCKED_ASSET_EXTS.contains ext then .error .blockedAsset else .ok ()
    else .ok ()

/-- On-disk state for `ThemeFS`, keyed by resolved absolute component
lists. -/
abbrev FsP := List (List Str × Str)

/-- `ThemeFS.write_text` (UTF-8 encoding is the identity on the text
model; `mkdir(parents=True)` is implicit). -/
def writeText (root : List Str) (fs : FsP) (relPath content : Str) :
    Except ScopeErr FsP :=
  match blockAssetBinaryTypes relPath with
  | .error e => .error e
  | .ok _ =>
    if hasInfix (pystr "data:image/") content && decide (content.length > 50000) then
      .error .inlineImageData
    else
      match resolveRel root relPath with
      | .error e => .error e
      | .ok key => .ok (aset fs key content)

/-- `ThemeFS.read_text` (reading back with `errors="replace"` is the
identity on text the model itself wrote). -/
def readText (root : List Str) (fs : FsP) (relPath : Str) :
    Except ScopeErr Str :=
  match resolveRel root relPath with
  | .error e => .error e
  | .ok key =>
    match alookup fs key with
    | none => .error .fileNotFound
    | some c => .ok c

/-- A concrete resolved workspace root used by witnesses. -/
def demoRoot : List Str := [pystr "srv", pystr "theme"]

/-- A two-section unified diff whose second section's removed line does not
match the target file. -/
def c3TwoFilePatch : Str :=
  pystr "diff --git a/sections/a.liquid b/sections/a.liquid\n@@ -1 +1 @@\n-old\n+new\ndiff --git a/sections/b.liquid b/sections/b.liquid\n@@ -1 +1 @@\n-wrong\n+x\n"

/-- Workspace for `c3TwoFilePatch`: the first section applies cleanly, the
second mismatches. -/
def c3TwoFileFs : Fs :=
  [(pystr "sections/a.liquid", pystr "old\n"),
   (pystr "sections/b.liquid", pystr "actual\n")]

/-- A single-section unified diff whose removed line mismatches. -/
def c3OnePatch : Str :=
  pystr "diff --git a/sections/b.liquid b/sections/b.liquid\n@@ -1 +1 @@\n-wrong\n+x\n"

/-- Workspace for `c3OnePatch`. -/
def c3OneFs : Fs := [(pystr "sections/b.liquid", pystr "actual\n")]

/-- The parse of `c3OnePatch`. -/
def c3OneFps : List FilePatch :=
  [⟨pystr "sections/b.liquid", pystr "sections/b.liquid",
    [⟨1, 1, 1, 1, [pystr "-wrong", pystr "+x"]⟩]⟩]

/-- A terminal model output longer than the 2000-character `edits`
truncation window (and not valid JSON: 2001 letters `a`). -/
def c7Long : Str := List.replicate 2001 'a'

/-- A minimal valid `create_file` op as a JSON object. -/
def c5CreateOp : J :=
  J.obj [(pystr "type", J.s (pystr "create_file")),
         (pystr "path", J.s (pystr "snippets/x.liquid")),
         (pystr "content", J.s (pystr "hi"))]

/-- A plan object holding one `create_file` op and nothing else. -/
def c5Kvs : List (Str × J) := [(pystr "ops", J.arr [c5CreateOp])]

/-- A justification text of exactly the minimum length (120 characters). -/
def c5Just : Str := List.replicate 120 'j'

/-- The workspace state after the C9 witness write. -/
def c9FsAfter : FsP :=
  [([pystr "srv", pystr "theme", pystr "sections", pystr "hero.liquid"],
    pystr "hello")]

/-! ### Lemmas -/

theorem splitSegs_ne_nil (s : Str) : splitSegs s ≠ [] := by
  cases s with
  | nil => simp [splitSegs]
  | cons c cs =>
    simp only [splitSegs]
    split
    · simp
    · split <;> simp

theorem joinSegs_cons (seg : Str) (rest : List Str) (h : rest ≠ []) :
    joinSegs (seg :: rest) = seg ++ '/' :: joinSegs rest := by
  cases rest with
  | nil => exact absurd rfl h
  | cons a l => rfl

theorem joinSegs_splitSegs (s : Str) : joinSegs (splitSegs s) = s := by
  induction s with
  | nil => rfl
  | cons c cs ih =>
    cases h : splitSegs cs with
    | nil => exact absurd h (splitSegs_ne_nil cs)
    | cons seg rest =>
      rw [h] at ih
      have hs : splitSegs (c :: cs)
          = if c = '/' then [] :: seg :: rest else (c :: seg) :: rest := by
        simp only [splitSegs, h]
      rw [hs]
      by_cases hc : c = '/'
      · subst hc
        rw [if_pos rfl, joinSegs_cons [] (seg :: rest) (by simp), ih]
        rfl
      · rw [if_neg hc]
        cases rest with
        | nil =>
          simp only [joinSegs] at ih ⊢
          rw [ih]
        | cons b l =>
          rw [joinSegs_cons (c :: seg) (b :: l) (by simp)]
          rw [joinSegs_cons seg (b :: l) (by simp)] at ih
          rw [List.cons_append, ih]

theorem joinSegs_append (l1 : List Str) (seg : Str) (l2 : List Str) (h : l1 ≠ []) :
    joinSegs (l1 ++ seg :: l2) = joinSegs l1 ++ '/' :: joinSegs (seg :: l2) := by
  induction l1 with
  | nil => exact absurd rfl h
  | cons a l ih =>
    cases l with
    | nil => simp [joinSegs_cons a (seg :: l2) (by simp), joinSegs]
    | cons b t =>
      rw [List.cons_append, joinSegs_cons a ((b :: t) ++ seg :: l2) (by simp),
          joinSegs_cons a (b :: t) (by simp), ih (by simp)]
      simp

theorem startsWith_iff (pre s : Str) : startsWith pre s = true ↔ pre <+: s :=
  List.isPrefixOf_iff_prefix

theorem hasInfix_iff (sub s : Str) : hasInfix sub s = true ↔ sub <:+: s := by
  unfold hasInfix
  rw [List.any_eq_true, List.infix_iff_prefix_suffix]
  constructor
  · rintro ⟨t, ht, hp⟩
    exact ⟨t, (List.isPrefixOf_iff_prefix).1 hp, (List.mem_tails t s).1 ht⟩
  · rintro ⟨t, hp, ht⟩
    exact ⟨t, (List.mem_tails t s).2 ht, (List.isPrefixOf_iff_prefix).2 hp⟩

/-- If the dip test fires, a `".."` segment occurs. -/
theorem dipsAux_mem (segs : List Str) (d : Nat) (h : dipsAux segs d = true) :
    pystr ".." ∈ segs := by
  induction segs generalizing d with
  | nil => simp [dipsAux] at h
  | cons seg rest ih =>
    simp only [dipsAux] at h
    by_cases hdd : seg = pystr ".."
    · simp [hdd]
    · rw [if_neg hdd] at h
      split at h <;> exact List.mem_cons_of_mem _ (ih _ h)

/-- Decompose a list at the first occurrence of an element. -/
theorem exists_first_split {α : Type} [DecidableEq α] {a : α} {l : List α}
    (h : a ∈ l) : ∃ l1 l2, l = l1 ++ a :: l2 ∧ a ∉ l1 := by
  induction l with
  | nil => simp at h
  | cons b t ih =>
    by_cases hb : a = b
    · exact ⟨[], t, by simp [hb], by simp⟩
    · have ht : a ∈ t := by
        cases List.mem_cons.1 h with
        | inl h' => exact absurd h' hb
        | inr h' => exact h'
      obtain ⟨l1, l2, he, hn⟩ := ih ht
      refine ⟨b :: l1, l2, by simp [he], ?_⟩
      simp only [List.mem_cons]
      rintro (h' | h')
      · exact hb h'
      · exact hn h'

/-- Number of real components contributed by a segment list. -/
def countReal (l : List Str) : Nat := (l.filter isRealSeg).length

theorem dipsAux_append_no_dd (l1 rest : List Str) (d : Nat)
    (h : pystr ".." ∉ l1) :
    dipsAux (l1 ++ rest) d = dipsAux rest (d + countReal l1) := by
  induction l1 generalizing d with
  | nil => simp [countReal]
  | cons seg t ih =>
    have hseg : seg ≠ pystr ".." := fun he => h (by simp [he])
    have ht : pystr ".." ∉ t := fun hm => h (List.mem_cons_of_mem _ hm)
    simp only [List.cons_append, dipsAux, if_neg hseg, List.append_eq]
    by_cases hr : isRealSeg seg
    · rw [if_pos hr, ih _ ht]
      have hcr : countReal (seg :: t) = countReal t + 1 := by
        simp [countReal, List.filter_cons, hr]
      rw [hcr]
      congr 1
      omega
    · rw [if_neg (by simpa using hr), ih _ ht]
      have hcr : countReal (seg :: t) = countReal t := by
        simp [countReal, List.filter_cons, hr]
      rw [hcr]

theorem absResolve_no_dd (parts : List Str) (acc : List Str)
    (h : ∀ seg ∈ parts, seg ≠ pystr "..") :
    parts.foldl (fun acc seg =>
      if seg = pystr ".." then acc.dropLast else acc ++ [seg]) acc = acc ++ parts := by
  induction parts generalizing acc with
  | nil => simp
  | cons seg t ih =>
    have hseg : seg ≠ pystr ".." := h seg (by simp)
    simp only [List.foldl_cons, if_neg hseg]
    rw [ih _ (fun x hx => h x (by simp [hx]))]
    simp

/-- Resolving `root ++ [".."]` for a clean root drops the last component. -/
theorem absResolve_root_dd (root : List Str) (h : rootOk root) :
    absResolve (root ++ [pystr ".."]) = root.dropLast := by
  unfold absResolve
  rw [List.foldl_append]
  rw [absResolve_no_dd root [] (fun seg hs => (h.2 seg hs).2.2)]
  simp

theorem firstSeg_splitSegs (s : Str) (seg : Str) (rest : List Str)
    (h : splitSegs s = seg :: rest) : firstSeg s = seg := by
  induction s generalizing seg rest with
  | nil =>
    simp only [splitSegs] at h
    cases h
    rfl
  | cons c cs ih =>
    cases hs : splitSegs cs with
    | nil => exact absurd hs (splitSegs_ne_nil cs)
    | cons seg' rest' =>
      have hred : splitSegs (c :: cs)
          = if c = '/' then [] :: seg' :: rest' else (c :: seg') :: rest' := by
        simp only [splitSegs, hs]
      rw [hred] at h
      by_cases hc : c = '/'
      · rw [if_pos hc] at h
        cases h
        simp only [firstSeg, List.takeWhile_cons]
        rw [if_neg (by simp [hc])]
      · rw [if_neg hc] at h
        have hihs := ih seg' rest' hs
        cases h
        simp only [firstSeg, List.takeWhile_cons]
        rw [if_pos (by simp [hc])]
        simp only [firstSeg] at hihs
        rw [hihs]

/-- Core dip analysis: if the segments of `r` dip below the starting
directory and `r` avoids both a leading `".."` and an inner `"/../"`, then
all segments before the final `".."` are empty or `"."`. -/
theorem dips_shape (r : Str)
    (hd : dipsAux (splitSegs r) 0 = true)
    (h1a : r ≠ pystr "..")
    (h1b : ¬ (pystr "../" <+: r))
    (h2 : ¬ (pystr "/../" <:+: r)) :
    ∃ l1, splitSegs r = l1 ++ [pystr ".."] ∧ l1 ≠ [] ∧
      (∀ x ∈ l1, isRealSeg x = false) := by
  obtain ⟨l1, l2, he, hn⟩ := exists_first_split (dipsAux_mem _ _ hd)
  -- l1 ≠ [] : otherwise r is ".." or starts with "../"
  have hl1 : l1 ≠ [] := by
    intro h0
    subst h0
    simp only [List.nil_append] at he
    have hj : r = joinSegs (pystr ".." :: l2) := by
      rw [← he, joinSegs_splitSegs]
    cases l2 with
    | nil => exact h1a (by simpa [joinSegs] using hj)
    | cons b t =>
      apply h1b
      rw [joinSegs_cons _ _ (by simp)] at hj
      rw [hj]
      exact ⟨joinSegs (b :: t), rfl⟩
  -- l2 = [] : otherwise "/../" is an infix of r
  have hl2 : l2 = [] := by
    cases l2 with
    | nil => rfl
    | cons b t =>
      exfalso
      apply h2
      have hj : r = joinSegs l1 ++ '/' :: joinSegs (pystr ".." :: b :: t) := by
        rw [← joinSegs_append l1 _ _ hl1, ← he, joinSegs_splitSegs]
      rw [joinSegs_cons _ _ (by simp)] at hj
      have : r = joinSegs l1 ++ (pystr "/../" ++ joinSegs (b :: t)) := by
        rw [hj]; rfl
      rw [this, ← List.append_assoc]
      exact List.infix_append _ _ _
  subst hl2
  refine ⟨l1, he, hl1, ?_⟩
  -- the dip count forces zero real segments before the final ".."
  have := hd
  rw [he, dipsAux_append_no_dd l1 _ 0 hn] at this
  simp only [dipsAux, if_pos rfl, Nat.zero_add] at this
  have hc0 : countReal l1 = 0 := by
    by_contra hne
    rw [if_neg hne] at this
    simp [dipsAux] at this
  intro x hx
  by_contra hxr
  have hmemf : x ∈ l1.filter isRealSeg := by
    rw [List.mem_filter]
    exact ⟨hx, by simpa using hxr⟩
  have hne : l1.filter isRealSeg ≠ [] := fun h0 => by simp [h0] at hmemf
  exact hne (List.length_eq_zero.1 hc0)

/-- The resolver component of C1: any input whose stripped form walks above
the workspace root is rejected by `ThemeFS._resolve_rel`. -/
theorem resolveRel_rejects (root : List Str) (s : Str)
    (hr : rootOk root) (hd : escapesResolved s = true) :
    exOk (resolveRel root s) = false := by
  unfold resolveRel
  dsimp only
  split
  · rfl
  · next hcond =>
    simp only [Bool.or_eq_true, not_or] at hcond
    obtain ⟨⟨hb1, hb2⟩, _⟩ := hcond
    have h1 : ¬ (pystr ".." <+: lstripSlash (pyStrip s)) := fun hp =>
      hb1 ((startsWith_iff _ _).2 hp)
    have h2 : ¬ (pystr "/../" <:+: lstripSlash (pyStrip s)) := fun hi =>
      hb2 ((hasInfix_iff _ _).2 hi)
    have h1a : lstripSlash (pyStrip s) ≠ pystr ".." := fun he =>
      h1 (he ▸ List.prefix_refl _)
    have h1b : ¬ (pystr "../" <+: lstripSlash (pyStrip s)) := fun hp =>
      h1 (List.IsPrefix.trans ⟨['/'], rfl⟩ hp)
    obtain ⟨l1, he, hl1, hall⟩ := dips_shape _ hd h1a h1b h2
    have hpp : pathParts (lstripSlash (pyStrip s)) = [pystr ".."] := by
      unfold pathParts
      rw [he, List.filter_append]
      have hf : l1.filter isRealSeg = [] :=
        List.filter_eq_nil_iff.2 (fun x hx => by simp [hall x hx])
      rw [hf]
      rfl
    rw [hpp, absResolve_root_dd root hr]
    have hnp : root.isPrefixOf root.dropLast = false := by
      by_contra hb
      have hp : root <+: root.dropLast :=
        (List.isPrefixOf_iff_prefix).1 (by simpa using hb)
      have hlen := hp.length_le
      have hpos : 0 < root.length := List.length_pos.2 hr.1
      rw [List.length_dropLast] at hlen
      omega
    rw [hnp]
    rfl

/-- The validator component of C1: any input whose normalized form walks
above the workspace root is rejected by `_is_safe_theme_path`. -/
theorem isSafeThemePath_rejects (s : Str) (hd : escapesNormed s = true) :
    isSafeThemePath s = false := by
  unfold isSafeThemePath
  dsimp only
  split
  · rfl
  · next hcond =>
    simp only [Bool.or_eq_true, not_or, beq_iff_eq] at hcond
    obtain ⟨⟨⟨hb1, hb2⟩, hb3⟩, _⟩ := hcond
    have h1a : normRelPath s ≠ pystr ".." := hb3
    have h1b : ¬ (pystr "../" <+: normRelPath s) := fun hp =>
      hb1 ((startsWith_iff _ _).2 hp)
    have h2 : ¬ (pystr "/../" <:+: normRelPath s) := fun hi =>
      hb2 ((hasInfix_iff _ _).2 hi)
    obtain ⟨l1, he, hl1, hall⟩ := dips_shape _ hd h1a h1b h2
    cases hsplit : l1 with
    | nil => exact absurd hsplit hl1
    | cons seg0 l1t =>
      have hfs : firstSeg (normRelPath s) = seg0 :=
        firstSeg_splitSegs _ _ _ (by rw [he, hsplit]; rfl)
      have hseg0 : isRealSeg seg0 = false := hall seg0 (by rw [hsplit]; simp)
      have hcases : seg0 = [] ∨ seg0 = pystr "." := by
        by_contra hno
        simp only [isRealSeg, if_neg hno] at hseg0
        exact Bool.noConfusion hseg0
      have hnotin : ALLOWED_TOP_LEVEL_DIRS.contains (firstSeg (normRelPath s)) = false := by
        rw [hfs]
        cases hcases with
        | inl h0 => rw [h0]; rfl
        | inr h0 => rw [h0]; rfl
      rw [hnotin]
      rfl

theorem alookup_aset_self {κ α : Type} [DecidableEq κ]
    (kvs : List (κ × α)) (k : κ) (v : α) : alookup (aset kvs k v) k = some v := by
  induction kvs with
  | nil => simp [aset, alookup]
  | cons kv t ih =>
    obtain ⟨k0, v0⟩ := kv
    by_cases hk : k0 = k
    · simp [aset, alookup, hk]
    · simp only [aset, if_neg hk, alookup]
      exact ih

theorem alookup_aset_ne {κ α : Type} [DecidableEq κ]
    (kvs : List (κ × α)) (k k' : κ) (v : α) (h : k' ≠ k) :
    alookup (aset kvs k v) k' = alookup kvs k' := by
  induction kvs with
  | nil =>
    simp only [aset, alookup]
    rw [if_neg (fun he => h he.symm)]
  | cons kv t ih =>
    obtain ⟨k0, v0⟩ := kv
    by_cases hk : k0 = k
    · subst hk
      simp only [aset, if_pos rfl, alookup]
      rw [if_neg (fun he => h he.symm), if_neg (fun he => h he.symm)]
    · simp only [aset, if_neg hk, alookup]
      by_cases hk' : k0 = k'
      · rw [if_pos hk', if_pos hk']
      · rw [if_neg hk', if_neg hk']
        exact ih

theorem demoRoot_ok : rootOk demoRoot := by
  unfold rootOk
  exact ⟨by decide, by decide⟩

/-- An all-tool-call transcript drives `run_with_tools` to the budget
error, whatever round it starts at. -/
theorem runWithToolsGo_exhausts (parse : Str → Option J)
    (resp : Nat → ModelResp) (maxRT : Nat) :
    ∀ remaining round, (∀ k, round ≤ k → k < round + remaining → resp k = .toolCalls) →
      runWithToolsGo parse resp maxRT remaining round
        = .error (.exceededRoundTrips maxRT) := by
  intro remaining
  induction remaining with
  | zero => intro round _; rfl
  | succ m ih =>
    intro round h
    have h0 : resp round = .toolCalls := h round (Nat.le_refl _) (by omega)
    simp only [runWithToolsGo, h0]
    exact ih (round + 1) (fun k hk1 hk2 => h k (by omega) (by omega))

/-- A transcript of decisions that are never `done` (and never raise)
drives the orchestrator loop to its normal fall-through return. -/
theorem runAgentLoopGo_exhausts (step : Nat → Except LLMErr DecisionStatus)
    (h : ∀ k, step k = .ok .needsHuman ∨ step k = .ok .other) :
    ∀ remaining i, runAgentLoopGo step remaining i = .ok .iterationsExhausted := by
  intro remaining
  induction remaining with
  | zero => intro i; rfl
  | succ m ih =>
    intro i
    cases h i with
    | inl h0 => simp only [runAgentLoopGo, h0]; exact ih (i + 1)
    | inr h0 => simp only [runAgentLoopGo, h0]; exact ih (i + 1)

/-! ### Claim theorems -/

/-- C1: every input path whose parent-directory traversal walks above the
workspace root (measured on the text each function actually checks) is
rejected: `ThemeFS._resolve_rel` raises a `ThemeScopeError` — so
`read_text` and `write_text` fail too — and `_is_safe_theme_path` returns
`False`; the specification's example paths are rejected by both. -/
theorem spec_c1 :
    (∀ (root : List Str) (fs : FsP) (s content : Str),
      rootOk root → escapesResolved s = true →
      exOk (resolveRel root s) = false
        ∧ exOk (readText root fs s) = false
        ∧ exOk (writeText root fs s content) = false)
    ∧ (∀ s : Str, escapesNormed s = true → isSafeThemePath s = false) := by
  constructor
  · intro root fs s content hr hd
    have hres : exOk (resolveRel root s) = false := resolveRel_rejects root s hr hd
    have herr : ∃ e, resolveRel root s = .error e := by
      cases hx : resolveRel root s with
      | ok v => rw [hx] at hres; exact absurd hres (by simp [exOk])
      | error e => exact ⟨e, rfl⟩
    obtain ⟨e, he⟩ := herr
    refine ⟨hres, ?_, ?_⟩
    · unfold readText
      rw [he]
      rfl
    · unfold writeText
      cases hb : blockAssetBinaryTypes s with
      | error e2 => rfl
      | ok u =>
        dsimp only
        split
        · rfl
        · rw [he]
          rfl
  · intro s hd
    exact isSafeThemePath_rejects s hd

/-- Witness for C1 at the specification's concrete examples. -/
theorem spec_c1_witness :
    exOk (resolveRel demoRoot (pystr "../../etc/passwd")) = false
    ∧ exOk (readText demoRoot [] (pystr "../../etc/passwd")) = false
    ∧ exOk (writeText demoRoot [] (pystr "../../etc/passwd") (pystr "x")) = false
    ∧ isSafeThemePath (pystr "a/../../b") = false := by
  have h1 := spec_c1.1 demoRoot [] (pystr "../../etc/passwd") (pystr "x")
    demoRoot_ok (by decide)
  have h2 := spec_c1.2 (pystr "a/../../b") (by decide)
  exact ⟨h1.1, h1.2.1, h1.2.2, h2⟩

/-- C4: `run_allowed` raises `CommandNotAllowed` before any process is
spawned unless some allowed prefix equals, element for element, the leading
elements of `argv`; `["rg","--version"]` passes against an allow-list
containing exactly that vector and fails against one containing only
`["git","--version"]`. -/
theorem spec_c4 :
    (∀ (cmd : List Str) (ps : List (List Str)),
      ((∃ p ∈ ps, p <+: cmd) → runAllowed cmd ps = .ok cmd)
      ∧ ((∀ p ∈ ps, ¬ p <+: cmd) →
          runAllowed cmd ps = .error (.notAllowed (normalizeCmd cmd))))
    ∧ runAllowed [pystr "rg", pystr "--version"] [[pystr "rg", pystr "--version"]]
        = .ok [pystr "rg", pystr "--version"]
    ∧ runAllowed [pystr "rg", pystr "--version"] [[pystr "git", pystr "--version"]]
        = .error (.notAllowed (normalizeCmd [pystr "rg", pystr "--version"])) := by
  refine ⟨?_, rfl, rfl⟩
  intro cmd ps
  have hiff : (ps.any (fun p => cmd.take p.length == p) = true)
      ↔ ∃ p ∈ ps, p <+: cmd := by
    rw [List.any_eq_true]
    constructor
    · rintro ⟨p, hp, hb⟩
      refine ⟨p, hp, ?_⟩
      rw [List.prefix_iff_eq_take]
      exact (beq_iff_eq.1 hb).symm
    · rintro ⟨p, hp, hpre⟩
      refine ⟨p, hp, ?_⟩
      rw [beq_iff_eq]
      exact (List.prefix_iff_eq_take.1 hpre).symm
  constructor
  · intro hex
    unfold runAllowed
    rw [if_pos (hiff.2 hex)]
  · intro hall
    unfold runAllowed
    rw [if_neg ?_]
    intro hany
    obtain ⟨p, hp, hpre⟩ := hiff.1 hany
    exact hall p hp hpre

/-- Witness for C4: both implications instantiated on the specification's
concrete command vectors. -/
theorem spec_c4_witness :
    runAllowed [pystr "rg", pystr "--version"] [[pystr "rg", pystr "--version"]]
      = .ok [pystr "rg", pystr "--version"]
    ∧ runAllowed [pystr "rg", pystr "--version"] [[pystr "git", pystr "--version"]]
      = .error (.notAllowed (normalizeCmd [pystr "rg", pystr "--version"])) := by
  refine ⟨(spec_c4.1 _ _).1 ⟨[pystr "rg", pystr "--version"], by decide, by decide⟩,
    (spec_c4.1 _ _).2 ?_⟩
  intro p hp
  have hpe : p = [pystr "git", pystr "--version"] := by
    cases hp with
    | head => rfl
    | tail _ hm => cases hm
  subst hpe
  decide

/-- C8 counterexample: on the signal text `"please continue, ship it"`,
`wait_for_continue` removes only the literal keyword, leaving the space
before the comma: the notes are `"please , ship it"`, not the claimed
`"please, ship it"`. -/
theorem spec_c8_counterexample :
    waitForContinueStep (pystr "please continue, ship it")
      = some (pystr "please , ship it", [])
    ∧ pystr "please , ship it" ≠ pystr "please, ship it" := by
  refine ⟨rfl, by decide⟩

/-- C8 (amended): on the signal text `"please continue, ship it"`,
`wait_for_continue` unblocks, returns `"please , ship it"` (keyword
removed, the surrounding interior space kept, ends trimmed) and writes the
empty string back to the signal file. -/
theorem spec_c8 :
    waitForContinueStep (pystr "please continue, ship it")
      = some (pystr "please , ship it", []) := rfl

/-- C2: an anchor operation whose declared expected count differs from the
number of literal (non-overlapping, Python `str.count`) occurrences of the
anchor in the target file fails with an anchor-mismatch `ApplyError`, and
the filesystem is returned unchanged. -/
theorem spec_c2 (fs : Fs) (p a x : Str) (e : Int) (r orig : Str)
    (hlk : alookup fs p = some orig)
    (hne : (countOccurrences orig a : Int) ≠ e) :
    applyPlanOps [PlanOp.insertAfter p a x e r] fs
      = (fs, .error (.anchorMismatch 0 p (countOccurrences orig a) e))
    ∧ applyPlanOps [PlanOp.insertBefore p a x e r] fs
      = (fs, .error (.anchorMismatch 0 p (countOccurrences orig a) e))
    ∧ applyPlanOps [PlanOp.replaceOnce p a x e r] fs
      = (fs, .error (.anchorMismatch 0 p (countOccurrences orig a) e)) := by
  refine ⟨?_, ?_, ?_⟩ <;>
  · simp only [applyPlanOps, applyPlanOpsGo, applyOneOp, applyAnchor, hlk]
    rw [if_pos hne]

/-- Witness for C2: expected count 1 against a file containing the anchor
twice. -/
theorem spec_c2_witness :
    applyPlanOps
        [PlanOp.insertAfter (pystr "sections/a.liquid") (pystr "x") (pystr "Z") 1 []]
        [(pystr "sections/a.liquid", pystr "x y x")]
      = ([(pystr "sections/a.liquid", pystr "x y x")],
         .error (.anchorMismatch 0 (pystr "sections/a.liquid") 2 1)) := by
  have h := spec_c2 [(pystr "sections/a.liquid", pystr "x y x")]
    (pystr "sections/a.liquid") (pystr "x") (pystr "Z") 1 [] (pystr "x y x")
    rfl (by decide)
  exact h.1

/-- C10: an anchor operation whose computed new text equals the target
file's original text succeeds with no write: the filesystem is returned
unchanged, `changed_files` is empty, and the op still appears in
`applied_ops`. -/
theorem spec_c10 (fs : Fs) (p a x rep : Str) (e : Int) (r orig : Str)
    (hlk : alookup fs p = some orig)
    (heq : (countOccurrences orig a : Int) = e) :
    (insertAfterText orig a x = .ok orig →
      applyPlanOps [PlanOp.insertAfter p a x e r] fs
        = (fs, .ok ⟨[], [], [⟨pystr "insert_after", some p, some a, r⟩]⟩))
    ∧ (insertBeforeText orig a x = .ok orig →
      applyPlanOps [PlanOp.insertBefore p a x e r] fs
        = (fs, .ok ⟨[], [], [⟨pystr "insert_before", some p, some a, r⟩]⟩))
    ∧ (replaceOnceText orig a rep = .ok orig →
      applyPlanOps [PlanOp.replaceOnce p a rep e r] fs
        = (fs, .ok ⟨[], [], [⟨pystr "replace_once", some p, some a, r⟩]⟩)) := by
  refine ⟨?_, ?_, ?_⟩ <;>
  · intro hcomp
    simp only [applyPlanOps, applyPlanOpsGo, applyOneOp, applyAnchor, hlk, hcomp]
    rw [if_neg (fun hx => hx heq)]
    rw [if_neg (fun hx => hx rfl)]
    rfl

/-- Witness for C10: `replace_once` whose replacement equals the anchor. -/
theorem spec_c10_witness :
    applyPlanOps
        [PlanOp.replaceOnce (pystr "sections/a.liquid") (pystr "x") (pystr "x") 1 []]
        [(pystr "sections/a.liquid", pystr "x y")]
      = ([(pystr "sections/a.liquid", pystr "x y")],
         .ok ⟨[], [],
           [⟨pystr "replace_once", some (pystr "sections/a.liquid"),
             some (pystr "x"), []⟩]⟩) := by
  have h := spec_c10 [(pystr "sections/a.liquid", pystr "x y")]
    (pystr "sections/a.liquid") (pystr "x") (pystr "Z") (pystr "x") 1 [] (pystr "x y")
    rfl (by decide)
  exact h.2.2 rfl

/-- C3 (amended): a mismatching context/removed line (or any other
apply-time failure) raises a `PatchError`, and for a patch with at most one
`diff --git` section no file is modified; a multi-section patch may leave
files of sections before the failing one already rewritten (see the
counterexample). -/
theorem spec_c3 (t : Str) (fs : Fs)
    (hsec : ∀ fps, parseUnifiedDiff t = .ok fps → fps.length ≤ 1)
    (herr : exOk (applyUnifiedPatch t fs).2 = false) :
    (applyUnifiedPatch t fs).1 = fs := by
  unfold applyUnifiedPatch at herr ⊢
  cases hp : parseUnifiedDiff t with
  | error e => rfl
  | ok fps =>
    rw [hp] at herr
    dsimp only at herr ⊢
    have hlen := hsec fps hp
    cases fps with
    | nil => rfl
    | cons fp rest =>
      cases rest with
      | cons fp2 r2 => simp at hlen
      | nil =>
        unfold applyFilePatches
        dsimp only
        split
        · rfl
        · next hsafe =>
          cases hlk : alookup fs (normRelPath fp.pathNew) with
          | none => rfl
          | some original =>
            dsimp only
            cases hap : applyHunksToText original fp.hunks with
            | error e => rfl
            | ok newText =>
              exfalso
              unfold applyFilePatches at herr
              dsimp only at herr
              rw [if_neg hsafe, hlk] at herr
              dsimp only at herr
              rw [hap] at herr
              dsimp only at herr
              by_cases hne : newText ≠ original
              · rw [if_pos hne] at herr
                simp [applyFilePatches, exOk] at herr
              · rw [if_neg hne] at herr
                simp [applyFilePatches, exOk] at herr

set_option maxRecDepth 400000 in
/-- C3 counterexample: applying `c3TwoFilePatch` to `c3TwoFileFs` fails
with a delete-mismatch `PatchError` on the second section, yet the file of
the first section has already been rewritten on disk (from `"old\n"` to
`"new\n"`), refuting "every file named by the patch, including files
covered by earlier diff sections, is byte-for-byte unchanged". -/
theorem spec_c3_counterexample :
    exOk (applyUnifiedPatch c3TwoFilePatch c3TwoFileFs).2 = false
    ∧ alookup (applyUnifiedPatch c3TwoFilePatch c3TwoFileFs).1
        (pystr "sections/a.liquid") = some (pystr "new\n")
    ∧ alookup c3TwoFileFs (pystr "sections/a.liquid") = some (pystr "old\n")
    ∧ pystr "new\n" ≠ pystr "old\n" := by
  exact ⟨rfl, rfl, rfl, by decide⟩

set_option maxRecDepth 400000 in
/-- Witness for C3 (amended) at a concrete single-section mismatching
patch. -/
theorem spec_c3_witness :
    exOk (applyUnifiedPatch c3OnePatch c3OneFs).2 = false
    ∧ (applyUnifiedPatch c3OnePatch c3OneFs).1 = c3OneFs := by
  refine ⟨rfl, spec_c3 c3OnePatch c3OneFs ?_ rfl⟩
  intro fps h
  rw [show parseUnifiedDiff c3OnePatch = Except.ok c3OneFps from rfl] at h
  injection h with h2
  rw [← h2]
  decide

/-- C5: for a plan whose op list validates with at least one `create_file`
op and within every size budget, validation fails with a `PlanError` when
the plan lacks the `reuse_analysis` justification object, and the same plan
with a justification of at least 120 characters (after stripping)
validates; a plan with no `create_file` op validates without any
justification. -/
theorem spec_c5 (kvs : List (Str × J)) (ops nops : List J) (creates total : Nat)
    (hops : jGet kvs (pystr "ops") = some (J.arr ops))
    (hne : ops ≠ []) (hlen : ops.length ≤ 30)
    (hfold : foldValidateOps ops = .ok (nops, creates, total))
    (hc : creates ≤ 12) (ht : total ≤ 250000) :
    (0 < creates → jGet kvs (pystr "reuse_analysis") = none →
      validatePlan (J.obj kvs) = .error .missingReuseAnalysis)
    ∧ (0 < creates → ∀ jv : Str, 120 ≤ (pyStrip jv).length →
      validatePlan (J.obj (aset kvs (pystr "reuse_analysis")
          (J.obj [(pystr "new_files_justification", J.s jv)])))
        = .ok (J.obj (aset (aset kvs (pystr "reuse_analysis")
            (J.obj [(pystr "new_files_justification", J.s jv)]))
            (pystr "ops") (J.arr nops))))
    ∧ (creates = 0 →
      validatePlan (J.obj kvs) = .ok (J.obj (aset kvs (pystr "ops") (J.arr nops)))) := by
  have hemp : ops.isEmpty = false := by
    cases ops with
    | nil => exact absurd rfl hne
    | cons a t => rfl
  refine ⟨?_, ?_, ?_⟩
  · intro h0c hra
    unfold validatePlan
    dsimp only
    rw [hops]
    dsimp only
    rw [if_neg (fun hx => Bool.noConfusion (hemp ▸ hx))]
    rw [if_neg (by omega), hfold]
    dsimp only
    rw [if_neg (by omega), if_neg (by omega), if_pos h0c, hra]
  · intro h0c jv hjv
    have hops2 : jGet (aset kvs (pystr "reuse_analysis")
        (J.obj [(pystr "new_files_justification", J.s jv)])) (pystr "ops")
        = some (J.arr ops) := by
      unfold jGet
      rw [alookup_aset_ne _ _ _ _ (by decide)]
      exact hops
    unfold validatePlan
    dsimp only
    rw [hops2]
    dsimp only
    rw [if_neg (fun hx => Bool.noConfusion (hemp ▸ hx))]
    rw [if_neg (by omega), hfold]
    dsimp only
    rw [if_neg (by omega), if_neg (by omega), if_pos h0c]
    rw [show jGet (aset kvs (pystr "reuse_analysis")
        (J.obj [(pystr "new_files_justification", J.s jv)])) (pystr "reuse_analysis")
        = some (J.obj [(pystr "new_files_justification", J.s jv)]) from
      alookup_aset_self _ _ _]
    dsimp only
    rw [show jGet [(pystr "new_files_justification", J.s jv)]
        (pystr "new_files_justification") = some (J.s jv) from by
      unfold jGet alookup
      rw [if_pos rfl]]
    dsimp only [Option.getD]
    rw [if_neg (by omega)]
  · intro h0
    unfold validatePlan
    dsimp only
    rw [hops]
    dsimp only
    rw [if_neg (fun hx => Bool.noConfusion (hemp ▸ hx))]
    rw [if_neg (by omega), hfold]
    dsimp only
    rw [if_neg (by omega), if_neg (by omega), if_neg (by omega)]

/-- Witness for C5 on a one-op `create_file` plan: it fails without a
justification and passes with a 120-character one. -/
theorem spec_c5_witness :
    validatePlan (J.obj c5Kvs) = .error .missingReuseAnalysis
    ∧ exOk (validatePlan (J.obj (aset c5Kvs (pystr "reuse_analysis")
        (J.obj [(pystr "new_files_justification", J.s c5Just)])))) = true := by
  have h := spec_c5 c5Kvs [c5CreateOp] _ 1 2 rfl (by simp [c5Kvs])
    (by decide) rfl (by omega) (by omega)
  refine ⟨h.1 (by omega) rfl, ?_⟩
  rw [h.2.1 (by omega) c5Just (by decide)]
  rfl

/-- C6 (amended): exhausting the tool round-trip budget raises `LLMError`
(a run-level failure), but exhausting the orchestrator's iteration budget
without a `done` decision simply ends the loop and returns normally — it is
not converted into a failure outcome. -/
theorem spec_c6 :
    (∀ (parse : Str → Option J) (resp : Nat → ModelResp) (n : Nat),
      (∀ k, k < n → resp k = .toolCalls) →
      runWithTools parse resp n = .error (.exceededRoundTrips n))
    ∧ (∀ (step : Nat → Except LLMErr DecisionStatus) (n : Nat),
      (∀ k, step k = .ok .needsHuman ∨ step k = .ok .other) →
      runAgentLoop step n = .ok .iterationsExhausted) := by
  constructor
  · intro parse resp n h
    exact runWithToolsGo_exhausts parse resp n n 0 (fun k _ hk2 => h k (by omega))
  · intro step n h
    exact runAgentLoopGo_exhausts step h n 1

/-- C6 counterexample: a run whose model keeps deciding `continue` for all
`max_iters` iterations makes `run_agent_loop` fall out of its `for` loop
and return normally (`.ok`), with no exception and no failure outcome —
refuting "the run likewise terminates with a failure outcome rather than
returning normally". -/
theorem spec_c6_counterexample :
    runAgentLoop (fun _ => .ok DecisionStatus.other) 2
      = .ok .iterationsExhausted := rfl

/-- Witness for C6 (amended): a three-round all-tool-call transcript raises
the budget error; a two-iteration never-done run returns normally. -/
theorem spec_c6_witness :
    runWithTools (fun _ => none) (fun _ => ModelResp.toolCalls) 3
      = .error (.exceededRoundTrips 3)
    ∧ runAgentLoop (fun _ => .ok DecisionStatus.needsHuman) 2
      = .ok .iterationsExhausted :=
  ⟨spec_c6.1 _ _ 3 (fun k _ => rfl), spec_c6.2 _ 2 (fun _ => Or.inl rfl)⟩

/-- C7 (amended): a terminal output on which `json.loads` fails is coerced
to a `continue` decision that preserves only the first 2000 characters of
the raw text in its `edits` field; output that parses as JSON is returned
as the decision unchanged, even when it is not a conforming decision
object. -/
theorem spec_c7 :
    (∀ (parse : Str → Option J) (resp : Nat → ModelResp) (c : Str) (n : Nat),
      0 < n → resp 0 = .content c → parse c = none →
      runWithTools parse resp n
        = .ok (J.obj [(pystr "status", J.s (pystr "continue")),
            (pystr "plan", J.s (pystr "Model returned non-JSON.")),
            (pystr "edits", J.s (c.take 2000))]))
    ∧ (∀ (parse : Str → Option J) (resp : Nat → ModelResp) (c : Str) (n : Nat)
        (d : J),
      0 < n → resp 0 = .content c → parse c = some d →
      runWithTools parse resp n = .ok d) := by
  constructor
  · intro parse resp c n hn h0 hp
    cases n with
    | zero => omega
    | succ m =>
      unfold runWithTools runWithToolsGo
      rw [h0]
      dsimp only
      unfold coerceDecision
      rw [hp]
  · intro parse resp c n d hn h0 hp
    cases n with
    | zero => omega
    | succ m =>
      unfold runWithTools runWithToolsGo
      rw [h0]
      dsimp only
      unfold coerceDecision
      rw [hp]

/-- C7 counterexample: with 2001 letters `a` as the terminal output (not
valid JSON, so `json.loads` raises and the abstracted parser returns
`none`), the coerced decision's `edits` field holds only the first 2000
characters — the full content is not recoverable; and the JSON-parseable
non-decision output `"[1, 2]"` (`json.loads` yields the array `[1, 2]`) is
returned as the decision with no coercion and no `status` field at all. -/
theorem spec_c7_counterexample :
    runWithTools (fun _ => none) (fun _ => ModelResp.content c7Long) 5
      = .ok (J.obj [(pystr "status", J.s (pystr "continue")),
          (pystr "plan", J.s (pystr "Model returned non-JSON.")),
          (pystr "edits", J.s (c7Long.take 2000))])
    ∧ c7Long.take 2000 ≠ c7Long
    ∧ runWithTools (fun _ => some (J.arr [J.i 1, J.i 2]))
        (fun _ => ModelResp.content (pystr "[1, 2]")) 5
      = .ok (J.arr [J.i 1, J.i 2]) := by
  refine ⟨rfl, ?_, rfl⟩
  intro h
  have hlen := congrArg List.length h
  simp only [c7Long, List.length_take, List.length_replicate] at hlen
  omega

/-- Witness for C7 (amended) at concrete short outputs. -/
theorem spec_c7_witness :
    runWithTools (fun _ => none) (fun _ => ModelResp.content (pystr "blah")) 3
      = .ok (J.obj [(pystr "status", J.s (pystr "continue")),
          (pystr "plan", J.s (pystr "Model returned non-JSON.")),
          (pystr "edits", J.s ((pystr "blah").take 2000))])
    ∧ runWithTools (fun _ => some (J.b true)) (fun _ => ModelResp.content (pystr "true")) 3
      = .ok (J.b true) :=
  ⟨spec_c7.1 _ _ _ 3 (by omega) rfl rfl,
   spec_c7.2 _ _ _ 3 (J.b true) (by omega) rfl rfl⟩

/-- C9: whenever `write_text` accepts a path and content, an immediate
`read_text` of the same path returns exactly the written content. -/
theorem spec_c9 (root : List Str) (fs : FsP) (rel content : Str) (fs2 : FsP)
    (h : writeText root fs rel content = .ok fs2) :
    readText root fs2 rel = .ok content := by
  unfold writeText at h
  cases hb : blockAssetBinaryTypes rel with
  | error e =>
    rw [hb] at h
    simp at h
  | ok u =>
    rw [hb] at h
    dsimp only at h
    split at h
    · simp at h
    · cases hr : resolveRel root rel with
      | error e =>
        rw [hr] at h
        simp at h
      | ok key =>
        rw [hr] at h
        injection h with h2
        unfold readText
        rw [hr, ← h2]
        dsimp only
        rw [alookup_aset_self]

/-- Witness for C9: write then read of `sections/hero.liquid`. -/
theorem spec_c9_witness :
    writeText demoRoot [] (pystr "sections/hero.liquid") (pystr "hello")
      = .ok c9FsAfter
    ∧ readText demoRoot c9FsAfter (pystr "sections/hero.liquid")
      = .ok (pystr "hello") :=
  ⟨rfl, spec_c9 demoRoot [] (pystr "sections/hero.liquid") (pystr "hello")
    c9FsAfter rfl⟩

end ThemeAgent
